import Mathlib

/-!
Verification of the cloud-tutorial notebooks: a shallow embedding of the
Python/shell logic of the project/storage CLI walkthrough and of the
content fetch and extraction walkthrough, together with theorems settling
the specified properties.

The embedding follows the notebook sources. External systems (the HTTP
client, the JSON decoder, the HTML document query, the CLI processes and
the random generator) are modelled as oracles supplied through environment
records, so every theorem quantifies over all possible behaviors of those
systems. Python data decoded from JSON is modelled by the `Json` type,
Python exceptions by `PyErr`, and a raising Python expression by an
`Except PyErr` value.
-/

/-- Decoded JSON values, the data shape that both the content-listing
response and the entity-analysis output take in the notebooks. -/
inductive Json where
  | null
  | bool (b : Bool)
  | num (n : Int)
  | str (s : String)
  | arr (elems : List Json)
  | obj (fields : List (String × Json))

mutual

/-- Structural equality test on `Json` values. -/
def Json.beq : Json → Json → Bool
  | .null, .null => true
  | .bool a, .bool b => a == b
  | .num a, .num b => a == b
  | .str a, .str b => a == b
  | .arr xs, .arr ys => Json.beqList xs ys
  | .obj fs, .obj gs => Json.beqFields fs gs
  | _, _ => false

/-- Structural equality test on lists of `Json` values. -/
def Json.beqList : List Json → List Json → Bool
  | [], [] => true
  | x :: xs, y :: ys => Json.beq x y && Json.beqList xs ys
  | _, _ => false

/-- Structural equality test on `Json` object field lists. -/
def Json.beqFields : List (String × Json) → List (String × Json) → Bool
  | [], [] => true
  | (k, v) :: xs, (k2, v2) :: ys => k == k2 && Json.beq v v2 && Json.beqFields xs ys
  | _, _ => false

end

mutual

/-- Correctness of `Json.beq`. -/
theorem Json.beq_iff : (a b : Json) → (Json.beq a b = true ↔ a = b)
  | .null, .null => by simp [Json.beq]
  | .null, .bool _ => by simp [Json.beq]
  | .null, .num _ => by simp [Json.beq]
  | .null, .str _ => by simp [Json.beq]
  | .null, .arr _ => by simp [Json.beq]
  | .null, .obj _ => by simp [Json.beq]
  | .bool _, .null => by simp [Json.beq]
  | .bool _, .bool _ => by simp [Json.beq]
  | .bool _, .num _ => by simp [Json.beq]
  | .bool _, .str _ => by simp [Json.beq]
  | .bool _, .arr _ => by simp [Json.beq]
  | .bool _, .obj _ => by simp [Json.beq]
  | .num _, .null => by simp [Json.beq]
  | .num _, .bool _ => by simp [Json.beq]
  | .num _, .num _ => by simp [Json.beq]
  | .num _, .str _ => by simp [Json.beq]
  | .num _, .arr _ => by simp [Json.beq]
  | .num _, .obj _ => by simp [Json.beq]
  | .str _, .null => by simp [Json.beq]
  | .str _, .bool _ => by simp [Json.beq]
  | .str _, .num _ => by simp [Json.beq]
  | .str _, .str _ => by simp [Json.beq]
  | .str _, .arr _ => by simp [Json.beq]
  | .str _, .obj _ => by simp [Json.beq]
  | .arr _, .null => by simp [Json.beq]
  | .arr _, .bool _ => by simp [Json.beq]
  | .arr _, .num _ => by simp [Json.beq]
  | .arr _, .str _ => by simp [Json.beq]
  | .arr xs, .arr ys => by simp [Json.beq, Json.beqList_iff xs ys]
  | .arr _, .obj _ => by simp [Json.beq]
  | .obj _, .null => by simp [Json.beq]
  | .obj _, .bool _ => by simp [Json.beq]
  | .obj _, .num _ => by simp [Json.beq]
  | .obj _, .str _ => by simp [Json.beq]
  | .obj _, .arr _ => by simp [Json.beq]
  | .obj fs, .obj gs => by simp [Json.beq, Json.beqFields_iff fs gs]

/-- Correctness of `Json.beqList`. -/
theorem Json.beqList_iff : (a b : List Json) → (Json.beqList a b = true ↔ a = b)
  | [], [] => by simp [Json.beqList]
  | [], _ :: _ => by simp [Json.beqList]
  | _ :: _, [] => by simp [Json.beqList]
  | x :: xs, y :: ys => by
    simp [Json.beqList, Json.beq_iff x y, Json.beqList_iff xs ys]

/-- Correctness of `Json.beqFields`. -/
theorem Json.beqFields_iff : (a b : List (String × Json)) → (Json.beqFields a b = true ↔ a = b)
  | [], [] => by simp [Json.beqFields]
  | [], _ :: _ => by simp [Json.beqFields]
  | _ :: _, [] => by simp [Json.beqFields]
  | (k, v) :: xs, (k2, v2) :: ys => by
    simp [Json.beqFields, Json.beq_iff v v2, Json.beqFields_iff xs ys, and_assoc]

end

instance : DecidableEq Json := fun a b => decidable_of_iff _ (Json.beq_iff a b)

/-- Python exceptions that the notebook operations can raise. -/
inductive PyErr where
  | keyError (k : String)
  | indexError
  | typeError (msg : String)
  | httpError (msg : String)
  | jsonDecodeError
  | attributeError (msg : String)
deriving DecidableEq

instance {ε α : Type} [DecidableEq ε] [DecidableEq α] : DecidableEq (Except ε α) := fun a b =>
  match a, b with
  | .ok x, .ok y =>
    if h : x = y then isTrue (by rw [h]) else isFalse (by intro hc; cases hc; exact h rfl)
  | .error x, .error y =>
    if h : x = y then isTrue (by rw [h]) else isFalse (by intro hc; cases hc; exact h rfl)
  | .ok _, .error _ => isFalse (by intro hc; cases hc)
  | .error _, .ok _ => isFalse (by intro hc; cases hc)

/-- Python subscription `d[k]` of a decoded JSON value by a string key:
a key lookup on a dict, a KeyError when the key is absent, and a
TypeError on values that do not accept string subscripts. -/
def Json.get : Json → String → Except PyErr Json
  | .obj fields, k =>
    match fields.lookup k with
    | some v => .ok v
    | none => .error (.keyError k)
  | _, _ => .error (.typeError "value does not accept a string subscript")

/-- Python subscription `l[i]` of a decoded JSON value by a nonnegative
index: an element access on a list, an IndexError when out of range, and a
TypeError on values that do not accept integer subscripts. -/
def Json.index : Json → Nat → Except PyErr Json
  | .arr xs, i =>
    match xs[i]? with
    | some v => .ok v
    | none => .error .indexError
  | _, _ => .error (.typeError "value does not accept an integer subscript")

/-- Python iteration `for x in v` over a decoded JSON value: the elements
of a list, the keys of a dict, the characters of a string, and a TypeError
otherwise. -/
def Json.iter : Json → Except PyErr (List Json)
  | .arr xs => .ok xs
  | .obj fields => .ok (fields.map fun kv => .str kv.fst)
  | .str s => .ok (s.data.map fun c => .str (String.singleton c))
  | _ => .error (.typeError "value is not iterable")

/-- Coercion of a decoded JSON value to the string that an HTTP client
requires as a URL; any non-string value makes the client raise. -/
def Json.asString : Json → Except PyErr String
  | .str s => .ok s
  | _ => .error (.typeError "url must be a string")

/-- Key lookup on a decoded JSON record, with no value for non-records. -/
def Json.objLookup : Json → String → Option Json
  | .obj fields, k => fields.lookup k
  | _, _ => none

example : Json.get (.obj [("a", .num 1), ("b", .num 2)]) "b" = .ok (.num 2) := by decide

example : Json.get (.obj [("a", .num 1)]) "z" = .error (.keyError "z") := by decide

example : Json.index (.arr [.num 1, .num 2]) 1 = .ok (.num 2) := by decide

/-!
The content fetch and extraction walkthrough (the New York Times notebook).
Source order: build the request URL from the API key, GET it, decode the
JSON body, select the URL of result index 1, GET that URL, query the HTML
for the article body text, write the text to a local file, create the
bucket, copy the file into it, run the entity-analysis CLI on the uploaded
file, join and decode its output lines, then flatten entities to mentions
and project out the mention texts.
-/

/-- The API credential literal assigned in the notebook. -/
def api_key : String := "UA2XaZfLvSdjXkxMOV6XgYkRReJris62"

/-- The fixed content-listing endpoint, before the query string is
appended. -/
def content_endpoint : String := "https://api.nytimes.com/svc/news/v3/content/all/all.json"

/-- The content-listing request URL, built exactly as the notebook does:
the endpoint, then a lone question mark, then the api-key pair. -/
def request_url (k : String) : String :=
  (content_endpoint ++ "?") ++ ("api-key=" ++ k)

/-- The local filename the article text is written to. -/
def nyt_text_filename : String := "nyt.txt"

/-- The bucket URI created for the entity-analysis task. -/
def google_cloud_bucket : String := "gs://amli-tutorial-ml-entity-analysis/"

/-- The cloud destination name: the bucket URI concatenated with the local
filename. -/
def cloud_nyt_text_filename : String := google_cloud_bucket ++ nyt_text_filename

/-- The entity-analysis CLI invocation whose output lines are captured. -/
def analyze_cmd : String :=
  "gcloud ml language analyze-entities --content-file=" ++ cloud_nyt_text_filename

/-- A Python list comprehension whose body may raise: the results in
order, or the error of the leftmost raising element. -/
def listComp {α β : Type} (f : α → Except PyErr β) : List α → Except PyErr (List β)
  | [] => .ok []
  | x :: xs => (f x).bind fun y => (listComp f xs).map fun ys => y :: ys

/-- The list comprehension selecting the mentions list of each entity:
iterate the entities value and subscript each element by "mentions". -/
def mentions_lists (entities : Json) : Except PyErr (List Json) :=
  (entities.iter).bind (listComp fun e => e.get "mentions")

/-- The double comprehension flattening the list of mentions lists into a
single list of mentions, left to right. -/
def mentions (mls : List Json) : Except PyErr (List Json) :=
  (listComp Json.iter mls).map List.flatten

/-- The comprehension selecting the text field of each mention. -/
def texts (ms : List Json) : Except PyErr (List Json) :=
  listComp (fun m => m.get "text") ms

/-- The mention-flattening tail of the walkthrough, applied to the decoded
analysis output: entities, mentions lists, flat mentions, mention texts. -/
def flattenAnalysis (analysis_json : Json) : Except PyErr (List Json × List Json) :=
  (analysis_json.get "entities").bind fun entities =>
  (mentions_lists entities).bind fun mls =>
  (mentions mls).bind fun ms =>
  (texts ms).map fun ts => (ms, ts)

/-- The display cell that loops over the decoded listing and prints the
url field of every result: it subscripts the response by "results",
iterates the value, and subscripts each result by "url", raising on the
first result that lacks the field. Its value is the list of printed url
values. -/
def printUrls (response_json : Json) : Except PyErr (List Json) :=
  (response_json.get "results").bind fun rs =>
  (rs.iter).bind (listComp fun r => r.get "url")

/-- The URL selection on the decoded listing response:
results, index 1, the url field, passed to the HTTP client as a string. -/
def selectedUrl (response_json : Json) : Except PyErr String :=
  ((((response_json.get "results").bind fun rs => rs.index 1).bind
      fun r => r.get "url").bind Json.asString)

/-- Oracles for the external systems the walkthrough calls: the HTTP
client body for a URL, the JSON decoder, the HTML document query for the
article-body section text (none when no such section exists, in which case
the subsequent get_text call raises an AttributeError), and the captured
stdout lines of a CLI command. -/
structure NytEnv where
  httpGet : String → Except PyErr String
  jsonParse : String → Except PyErr Json
  findArticleBody : String → Option String
  shellLines : String → List String

/-- Observable actions of a run: the URLs passed to the HTTP client in
order, the local file writes as name-content pairs, and the storage or
analysis CLI commands issued. -/
structure RunLog where
  gets : List String
  writes : List (String × String)
  shells : List String
deriving DecidableEq

/-- Values held by the walkthrough after the flattening cells: the
extracted article text, the flat mentions list and the mention texts. -/
structure NytOutcome where
  article_text : String
  mentions : List Json
  texts : List Json
deriving DecidableEq

/-- The content fetch and extraction walkthrough, cell by cell, as a
function of the external-system oracles. Each consecutive pair is the
result and the log of observable actions up to the raising point; an
uncaught exception of any underlying call ends the run with that error. -/
def nytRun (env : NytEnv) (k : String) : Except PyErr NytOutcome × RunLog :=
  let url0 := request_url k
  let log1 : RunLog := ⟨[url0], [], []⟩
  match env.httpGet url0 with
  | .error e => (.error e, log1)
  | .ok body1 =>
  match env.jsonParse body1 with
  | .error e => (.error e, log1)
  | .ok response_json =>
  match printUrls response_json with
  | .error e => (.error e, log1)
  | .ok _ =>
  match selectedUrl response_json with
  | .error e => (.error e, log1)
  | .ok url =>
  let log2 : RunLog := ⟨[url0, url], [], []⟩
  match env.httpGet url with
  | .error e => (.error e, log2)
  | .ok body2 =>
  match env.findArticleBody body2 with
  | none => (.error (.attributeError "NoneType object has no attribute get_text"), log2)
  | some article_text =>
  let log4 : RunLog := ⟨[url0, url], [(nyt_text_filename, article_text)],
    ["gsutil mb " ++ google_cloud_bucket,
     "gsutil cp " ++ nyt_text_filename ++ " " ++ cloud_nyt_text_filename,
     analyze_cmd]⟩
  let analysis := String.intercalate "\n" (env.shellLines analyze_cmd)
  match env.jsonParse analysis with
  | .error e => (.error e, log4)
  | .ok analysis_json =>
  match flattenAnalysis analysis_json with
  | .error e => (.error e, log4)
  | .ok msts => (.ok ⟨article_text, msts.fst, msts.snd⟩, log4)

/-!
The project/storage CLI walkthrough (the gcloud notebook and the storage
notebook). Each code cell is embedded as a `Cell` value, interpreted by
`runCell` against the notebook variable state and the external oracles:
the captured stdout lines of a CLI command, the two 32-bit random draws
and the directory listing.
-/

/-- Python random.getrandbits, modelled from its standard-library
documentation: the returned value carries exactly k random bits, embedded
as an arbitrary entropy value reduced modulo 2 to the k. -/
def getrandbits (k : Nat) (entropy : Nat) : Nat := entropy % 2 ^ k

/-- Python str on a nonnegative integer: its decimal rendering. -/
def pyStr (n : Nat) : String := toString n

/-- The randomly generated project name of the gcloud notebook. -/
def project_name (n : Nat) : String := "amli-cloud-tutorial-" ++ pyStr n

/-- The randomly generated bucket name of the storage notebook. -/
def bucket_name (n : Nat) : String :=
  ("gs://amli-cloud-tutorial-bucket-" ++ pyStr n) ++ "/"

/-- The fixed shared-bucket URI of the guarded creation cell. -/
def sharedBucket : String := "gs://amli-cloud-tutorial-bucket/"

/-- Oracles for the walkthrough: captured stdout lines per CLI command,
the entropy of the two random draws, and the working-directory listing. -/
structure NbEnv where
  shellLines : String → List String
  rand1 : Nat
  rand2 : Nat
  listdir : List String

/-- The notebook variables assigned anywhere in the walkthrough. -/
structure PState where
  project_name : String
  bucket_name : String
  bucket : String
  buckets : List String
  notebooks : List String
deriving DecidableEq

/-- The initial state, before any assignment. -/
def initState : PState := ⟨"", "", "", [], []⟩

/-- The code cells of the walkthrough, by shape. `shell` is a cell of
literal display-only commands; `shellP`, `shellBN` and `shellB` are cells
whose single command interpolates the project name, the random bucket name
or the shared bucket; `setProjectRand` and `setBucketNameRand` assign the
randomly generated names; `setProjectLitConfig` assigns a literal project
name and runs the config-set command on it; `bucketCheck` is the guarded
shared-bucket creation cell; `listNotebooks` assigns the filtered
directory listing. -/
inductive Cell where
  | shell (cmds : List String)
  | shellP (pre : String)
  | shellBN (pre : String)
  | shellB (pre suf : String)
  | setProjectRand
  | setProjectLitConfig (lit : String)
  | setBucketNameRand
  | bucketCheck
  | listNotebooks
deriving DecidableEq

/-- One step of the walkthrough: the state after the cell and the CLI
commands the cell issues, in order. The guarded creation cell captures
the listing lines into the buckets variable, issues the make-bucket
command exactly when the shared bucket is not among those lines, and
lists again. -/
def runCell (env : NbEnv) (st : PState) : Cell → PState × List String
  | .shell cmds => (st, cmds)
  | .shellP pre => (st, [pre ++ st.project_name])
  | .shellBN pre => (st, [pre ++ st.bucket_name])
  | .shellB pre suf => (st, [(pre ++ st.bucket) ++ suf])
  | .setProjectRand =>
      ({ st with project_name := project_name (getrandbits 32 env.rand1) }, [])
  | .setProjectLitConfig lit =>
      ({ st with project_name := lit }, ["gcloud config set project " ++ lit])
  | .setBucketNameRand =>
      ({ st with bucket_name := bucket_name (getrandbits 32 env.rand2) }, [])
  | .bucketCheck =>
      let captured := env.shellLines "gsutil ls"
      ({ st with bucket := sharedBucket, buckets := captured },
        ["gsutil ls"]
          ++ (if sharedBucket ∈ captured then [] else ["gsutil mb " ++ sharedBucket])
          ++ ["gsutil ls"])
  | .listNotebooks =>
      ({ st with notebooks := env.listdir.filter fun nb => nb.endsWith ".ipynb" }, [])

/-- The code cells of the gcloud notebook, in order. -/
def gcloudCells : List Cell :=
  [ .shell ["which gcloud || echo Install GCloud."],
    .shell ["gcloud auth print-access-token || gcloud auth login"],
    .shell ["gcloud"],
    .shell ["gcloud help auth"],
    .shell ["gcloud help projects"],
    .shell ["gcloud projects list"],
    .setProjectRand,
    .shellP "gcloud projects create ",
    .shell ["gcloud projects list"],
    .shellP "gcloud projects describe ",
    .shellP "gcloud projects delete -q ",
    .shell ["gcloud projects list"],
    .shell ["gcloud help config"],
    .shell ["gcloud config list"],
    .setProjectLitConfig "amli-cloud-tutorial",
    .shell ["gcloud config list"] ]

/-- The code cells of the storage notebook, in order. -/
def storageCells : List Cell :=
  [ .shell ["which gcloud || echo Install GCloud.",
      "gcloud auth print-access-token || gcloud auth login",
      "[[ ! -z $(gcloud config get-value project) ]] || echo Select a project."],
    .shell ["gsutil help"],
    .shell ["gsutil ls"],
    .setBucketNameRand,
    .shellBN "gsutil mb ",
    .shell ["gsutil ls"],
    .shellBN "gsutil rb ",
    .shell ["gsutil ls"],
    .bucketCheck,
    .shell ["gsutil help cp"],
    .listNotebooks,
    .shellB "gsutil cp *.ipynb " "",
    .shellB "gsutil ls " "",
    .shellB "gsutil rm " "*.ipynb",
    .shellB "gsutil ls " "",
    .shellB "gsutil rm -r " "" ]

/-- All code cells of the project/storage CLI walkthrough, in order. -/
def walkthroughCells : List Cell := gcloudCells ++ storageCells

/-!
The setup and check cells, at the shell level. The three guards are
or-chains; the semantics of the individual commands over an abstract
environment state is modelled from their documented behavior: which
succeeds exactly when the tool is installed, printing an access token
succeeds exactly when the tool is installed and the device authenticated,
echo always succeeds, the interactive login fallback completes the
authentication and succeeds when the tool is installed but is
command-not-found (status 127) when it is not, and the project test
succeeds exactly when a project is selected in the configuration.
-/

/-- The environment states the checks are run against. -/
structure GEnv where
  gcloudInstalled : Bool
  authenticated : Bool
  projectSet : Bool

/-- Shell commands occurring in the setup cells. -/
inductive ShCmd where
  | whichGcloud
  | printAccessToken
  | authLogin
  | projectTest
  | echo (msg : String)
  | orChain (a b : ShCmd)

/-- Exit status of a setup-cell command: an or-chain succeeds when its
left side does, and otherwise has the status of its right side. -/
def exitCode (env : GEnv) : ShCmd → Nat
  | .whichGcloud => if env.gcloudInstalled then 0 else 1
  | .printAccessToken => if env.gcloudInstalled && env.authenticated then 0 else 1
  | .authLogin => if env.gcloudInstalled then 0 else 127
  | .projectTest => if env.projectSet then 0 else 1
  | .echo _ => 0
  | .orChain a b => if exitCode env a = 0 then 0 else exitCode env b

/-- The tool-presence check cell. -/
def setupCellWhich : ShCmd := .orChain .whichGcloud (.echo "Install GCloud.")

/-- The authentication check cell. -/
def setupCellAuth : ShCmd := .orChain .printAccessToken .authLogin

/-- The project-selection check line of the storage-notebook setup cell. -/
def setupCellProject : ShCmd := .orChain .projectTest (.echo "Select a project.")

/-!
The final unique-listing cells build a dataframe from the texts list and
select the distinct values of its content column. The dataframe library is
external; its documented behavior over a list of records is embedded here:
the columns are the union of the record keys in order of first appearance,
selecting an absent column raises a KeyError, a record lacking the key of
an existing column contributes a missing value, and the unique operation
returns the values in order of appearance with later duplicates dropped.
-/

/-- An entry of a dataframe column: a value, or the missing-value marker
filled in for records lacking the column key. -/
inductive JCell where
  | val (j : Json)
  | nan
deriving DecidableEq

/-- The keys of a record row; non-record rows contribute no column. -/
def recordKeys : Json → List String
  | .obj fields => fields.map Prod.fst
  | _ => []

/-- The columns of a dataframe built from a list of rows: the union of
the row keys in order of first appearance. -/
def dfColumns (rows : List Json) : List String :=
  rows.foldl (fun acc r => acc ++ (recordKeys r).filter fun k => k ∉ acc) []

/-- Column selection on a dataframe built from a list of rows: a KeyError
when no row carries the key, and otherwise one entry per row, a missing
value for the rows that lack the key. -/
def dfGetColumn (rows : List Json) (c : String) : Except PyErr (List JCell) :=
  if c ∈ dfColumns rows then
    .ok (rows.map fun r =>
      match r.objLookup c with
      | some v => .val v
      | none => .nan)
  else .error (.keyError c)

/-- The unique operation: walk the entries left to right, keeping the ones
not seen before. -/
def uniqueAux : List JCell → List JCell → List JCell
  | _, [] => []
  | seen, x :: xs => if x ∈ seen then uniqueAux seen xs else x :: uniqueAux (x :: seen) xs

/-- Distinct column entries in order of first occurrence, as the unique
operation returns them. -/
def unique (xs : List JCell) : List JCell := uniqueAux [] xs

/-- Reference description of a distinct listing in order of first
occurrence, following the words of the claim: keep each head and drop its
later duplicates. `unique` is proved to coincide with it. -/
def distinctFirstOccurrence : List JCell → List JCell
  | [] => []
  | x :: xs => x :: distinctFirstOccurrence (xs.filter fun y => y ≠ x)
termination_by l => l.length
decreasing_by
  simp only [List.length_cons]
  exact Nat.lt_succ_of_le (List.length_filter_le _ _)

example : unique [.val (.str "a"), .nan, .val (.str "a"), .val (.str "b")] =
    [.val (.str "a"), .nan, .val (.str "b")] := by decide

/-!
Helper lemmas shared by the claim theorems.
-/

/-- A comprehension succeeds pointwise: when f sends each element to ok
of the corresponding result, the comprehension returns ok of the result
list. -/
theorem listComp_ok_of_forall2 {α β : Type} {f : α → Except PyErr β} :
    ∀ {xs : List α} {ys : List β},
      List.Forall₂ (fun a b => f a = .ok b) xs ys → listComp f xs = .ok ys := by
  intro xs ys h
  induction h with
  | nil => rfl
  | cons h1 _ ih => simp [listComp, h1, ih]; rfl

/-- Iterating a list of array values recovers the underlying lists. -/
theorem listComp_iter_map_arr (mls : List (List Json)) :
    listComp Json.iter (mls.map Json.arr) = .ok mls := by
  induction mls with
  | nil => rfl
  | cons ml mls ih => simp [listComp, Json.iter, ih]; rfl

/-- C1: in the content fetch and extraction walkthrough, for every
decoded analysis value whose entities field is a list of records each
holding a mentions list, the flat mentions list equals the left-to-right
concatenation of the per-entity mentions lists, its length is the sum of
the per-entity lengths, and the texts list is exactly the text field of
each flattened mention in the same order. -/
theorem flattening_concat (aj : Json) (es : List Json) (mls : List (List Json))
    (ts : List Json)
    (h1 : aj.get "entities" = .ok (.arr es))
    (h2 : List.Forall₂ (fun e ml => Json.get e "mentions" = .ok (.arr ml)) es mls)
    (h3 : List.Forall₂ (fun m t => Json.get m "text" = .ok t) mls.flatten ts) :
    flattenAnalysis aj = .ok (mls.flatten, ts) ∧
    mls.flatten.length = (mls.map List.length).sum := by
  have hm : listComp (fun e => Json.get e "mentions") es = .ok (mls.map Json.arr) := by
    apply listComp_ok_of_forall2
    exact List.forall₂_map_right_iff.mpr h2
  have hts : listComp (fun m => Json.get m "text") mls.flatten = .ok ts :=
    listComp_ok_of_forall2 h3
  refine ⟨?_, List.length_flatten mls⟩
  simp [flattenAnalysis, mentions_lists, mentions, texts, h1, Json.iter, hm,
    listComp_iter_map_arr, hts, Except.bind, Except.map]

/-- C3: in the content fetch and extraction walkthrough, no exception
raised by the HTTP requests, the JSON decoding, the result print loop, the
document-tree query or the CLI-output decoding is caught, classified or
retried: whichever underlying call is the first to raise, its error is the
uncaught result of the run, unchanged. -/
theorem exceptions_propagate (env : NytEnv) (k : String) :
    (∀ e, env.httpGet (request_url k) = .error e →
      (nytRun env k).fst = .error e) ∧
    (∀ b1 e, env.httpGet (request_url k) = .ok b1 → env.jsonParse b1 = .error e →
      (nytRun env k).fst = .error e) ∧
    (∀ b1 rj e, env.httpGet (request_url k) = .ok b1 → env.jsonParse b1 = .ok rj →
      printUrls rj = .error e → (nytRun env k).fst = .error e) ∧
    (∀ b1 rj us u e, env.httpGet (request_url k) = .ok b1 → env.jsonParse b1 = .ok rj →
      printUrls rj = .ok us → selectedUrl rj = .ok u → env.httpGet u = .error e →
      (nytRun env k).fst = .error e) ∧
    (∀ b1 rj us u b2, env.httpGet (request_url k) = .ok b1 → env.jsonParse b1 = .ok rj →
      printUrls rj = .ok us → selectedUrl rj = .ok u → env.httpGet u = .ok b2 →
      env.findArticleBody b2 = none →
      (nytRun env k).fst =
        .error (.attributeError "NoneType object has no attribute get_text")) ∧
    (∀ b1 rj us u b2 t e, env.httpGet (request_url k) = .ok b1 →
      env.jsonParse b1 = .ok rj →
      printUrls rj = .ok us → selectedUrl rj = .ok u → env.httpGet u = .ok b2 →
      env.findArticleBody b2 = some t →
      env.jsonParse (String.intercalate "\n" (env.shellLines analyze_cmd)) = .error e →
      (nytRun env k).fst = .error e) := by
  refine ⟨?_, ?_, ?_, ?_, ?_, ?_⟩
  · intro e h1
    simp [nytRun, h1]
  · intro b1 e h1 h2
    simp [nytRun, h1, h2]
  · intro b1 rj e h1 h2 h3
    simp [nytRun, h1, h2, h3]
  · intro b1 rj us u e h1 h2 h3 h4 h5
    simp [nytRun, h1, h2, h3, h4, h5]
  · intro b1 rj us u b2 h1 h2 h3 h4 h5 h6
    simp [nytRun, h1, h2, h3, h4, h5, h6]
  · intro b1 rj us u b2 t e h1 h2 h3 h4 h5 h6 h7
    simp [nytRun, h1, h2, h3, h4, h5, h6, h7]

/-- An oracle environment whose first HTTP request fails. -/
def envHttpFail : NytEnv :=
  ⟨fun _ => .error (.httpError "connection refused"),
   fun _ => .error .jsonDecodeError, fun _ => none, fun _ => []⟩

/-- A decoded listing response with two results. -/
def rjW : Json :=
  .obj [("status", .str "OK"),
    ("results", .arr
      [ .obj [("url", .str "https://www.nytimes.com/a.html"), ("section", .str "us")],
        .obj [("url", .str "https://www.nytimes.com/b.html"), ("section", .str "world")] ])]

/-- A concrete mention text record, in the shape the analysis CLI
returns. -/
def textW (c : String) (off : Int) : Json :=
  .obj [("content", .str c), ("beginOffset", .num off)]

/-- A concrete mention record holding a text field. -/
def mentionW (c : String) (off : Int) : Json :=
  .obj [("text", textW c off), ("type", .str "PROPER")]

/-- A concrete two-entity analysis value with two and one mentions. -/
def ajW : Json :=
  .obj [("entities", .arr
    [ .obj [("name", .str "Supreme Court"),
        ("mentions", .arr [mentionW "Supreme Court" 10, mentionW "court" 95])],
      .obj [("name", .str "New York"),
        ("mentions", .arr [mentionW "New York" 40])] ]),
    ("language", .str "en")]

/-- The entities of `ajW`. -/
def esW : List Json :=
  [ .obj [("name", .str "Supreme Court"),
      ("mentions", .arr [mentionW "Supreme Court" 10, mentionW "court" 95])],
    .obj [("name", .str "New York"),
      ("mentions", .arr [mentionW "New York" 40])] ]

/-- The per-entity mentions lists of `ajW`. -/
def mlsW : List (List Json) :=
  [[mentionW "Supreme Court" 10, mentionW "court" 95], [mentionW "New York" 40]]

/-- The mention texts of `ajW`, in flattened order. -/
def tsW : List Json :=
  [textW "Supreme Court" 10, textW "court" 95, textW "New York" 40]

/-- An oracle environment in which everything up to the entity-analysis
output succeeds and the CLI output fails to decode. -/
def envCliBad : NytEnv :=
  ⟨fun _ => .ok "page",
   fun s => if s = "ERROR: quota exceeded" then .error .jsonDecodeError else .ok rjW,
   fun _ => some "TEXT", fun _ => ["ERROR: quota exceeded"]⟩

/-- A decoded listing response whose first result lacks a url field, on
which the print loop raises before any later step. -/
def rjBad : Json :=
  .obj [("results", .arr
    [ .obj [("section", .str "us")],
      .obj [("url", .str "https://www.nytimes.com/b.html"), ("section", .str "world")] ])]

/-- An oracle environment whose listing decodes to `rjBad`. -/
def envPrintFail : NytEnv :=
  ⟨fun _ => .ok "page", fun _ => .ok rjBad, fun _ => some "TEXT", fun _ => []⟩

/-- Witness for C3: the first conjunct at an environment whose first GET
raises, the print-loop conjunct at an environment whose listing holds a
result without a url, and the last conjunct at an environment whose
analysis output is undecodable. -/
theorem exceptions_propagate_witness :
    (nytRun envHttpFail api_key).fst = .error (.httpError "connection refused") ∧
    (nytRun envPrintFail api_key).fst = .error (.keyError "url") ∧
    (nytRun envCliBad api_key).fst = .error .jsonDecodeError :=
  ⟨(exceptions_propagate envHttpFail api_key).1 (.httpError "connection refused") rfl,
   (exceptions_propagate envPrintFail api_key).2.2.1 "page" rjBad (.keyError "url")
     (by decide) (by decide) (by decide),
   (exceptions_propagate envCliBad api_key).2.2.2.2.2 "page" rjW
     [.str "https://www.nytimes.com/a.html", .str "https://www.nytimes.com/b.html"]
     "https://www.nytimes.com/b.html" "page" "TEXT" .jsonDecodeError
     (by decide) (by decide) (by decide) (by decide) (by decide) (by decide) (by decide)⟩

/-- C4: in the content fetch and extraction walkthrough, for a decoded
listing response whose results value is a list of records each carrying a
url field, exactly one result URL is selected: the run performs exactly
two HTTP GETs, the first to the listing endpoint and the second to the
url field of the element at index 1 of the results list, so no other
result URL is fetched. -/
theorem second_get_selected (env : NytEnv) (k b1 : String) (rj : Json)
    (rs us : List Json) (r1 : Json) (u : String)
    (h1 : env.httpGet (request_url k) = .ok b1)
    (h2 : env.jsonParse b1 = .ok rj)
    (h3 : rj.get "results" = .ok (.arr rs))
    (h4 : List.Forall₂ (fun r v => Json.get r "url" = .ok v) rs us)
    (h5 : rs[1]? = some r1)
    (h6 : r1.get "url" = .ok (.str u)) :
    (nytRun env k).snd.gets = [request_url k, u] := by
  have hp : printUrls rj = .ok us := by
    simp [printUrls, h3, Json.iter, Except.bind, listComp_ok_of_forall2 h4]
  have hsel : selectedUrl rj = .ok u := by
    simp [selectedUrl, h3, h6, Json.index, h5, Json.asString, Except.bind]
  simp only [nytRun, h1, h2, hp, hsel]
  split
  · rfl
  · split
    · rfl
    · split
      · rfl
      · split
        · rfl
        · rfl

/-- An oracle environment in which every call succeeds: the listing
decodes to `rjW`, the article page holds a body section, and the analysis
output decodes to `ajW`. -/
def envAllOk : NytEnv :=
  ⟨fun _ => .ok "page",
   fun s => if s = "page" then .ok rjW else .ok ajW,
   fun _ => some "TEXT", fun _ => ["analysis output"]⟩

/-- Witness for C4 at `envAllOk`: the two fetched URLs are the listing
request and the url of result index 1. -/
theorem second_get_selected_witness :
    (nytRun envAllOk api_key).snd.gets =
      [request_url api_key, "https://www.nytimes.com/b.html"] :=
  second_get_selected envAllOk api_key "page" rjW
    [ .obj [("url", .str "https://www.nytimes.com/a.html"), ("section", .str "us")],
      .obj [("url", .str "https://www.nytimes.com/b.html"), ("section", .str "world")] ]
    [.str "https://www.nytimes.com/a.html", .str "https://www.nytimes.com/b.html"]
    (.obj [("url", .str "https://www.nytimes.com/b.html"), ("section", .str "world")])
    "https://www.nytimes.com/b.html"
    (by decide) (by decide) (by decide)
    (List.Forall₂.cons (by decide) (List.Forall₂.cons (by decide) List.Forall₂.nil))
    (by decide) (by decide)

/-- C5: the content-listing request URL is the fixed endpoint followed by
the single query string carrying the API credential, and the first GET of
every run uses exactly that URL. -/
theorem api_key_query (k : String) :
    request_url k = content_endpoint ++ ("?api-key=" ++ k) ∧
    content_endpoint = "https://api.nytimes.com/svc/news/v3/content/all/all.json" ∧
    ∀ env : NytEnv, (nytRun env k).snd.gets.head? = some (request_url k) := by
  refine ⟨?_, rfl, ?_⟩
  · have h : ("?api-key=" ++ k : String) = "?" ++ ("api-key=" ++ k) := by
      rw [← String.append_assoc]
      rfl
    rw [request_url, String.append_assoc, ← h]
  · intro env
    simp only [nytRun]
    split
    · rfl
    · split
      · rfl
      · split
        · rfl
        · split
          · rfl
          · split
            · rfl
            · split
              · rfl
              · split
                · rfl
                · split
                  · rfl
                  · rfl

/-- C6: in the content fetch and extraction walkthrough, the extracted
body text is written unchanged as the sole content of the local file
nyt.txt, and the destination passed to the copy command is the bucket URI
concatenated with the local filename. -/
theorem article_written_and_uploaded (env : NytEnv) (k b1 : String) (rj : Json)
    (us : List Json) (u b2 t : String)
    (h1 : env.httpGet (request_url k) = .ok b1)
    (h2 : env.jsonParse b1 = .ok rj)
    (hp : printUrls rj = .ok us)
    (h3 : selectedUrl rj = .ok u)
    (h4 : env.httpGet u = .ok b2)
    (h5 : env.findArticleBody b2 = some t) :
    (nytRun env k).snd.writes = [(nyt_text_filename, t)] ∧
    ("gsutil cp " ++ nyt_text_filename ++ " " ++ cloud_nyt_text_filename)
      ∈ (nytRun env k).snd.shells ∧
    cloud_nyt_text_filename = google_cloud_bucket ++ nyt_text_filename ∧
    nyt_text_filename = "nyt.txt" := by
  refine ⟨?_, ?_, rfl, rfl⟩
  · simp only [nytRun, h1, h2, hp, h3, h4, h5]
    split
    · rfl
    · split
      · rfl
      · rfl
  · simp only [nytRun, h1, h2, hp, h3, h4, h5]
    split
    · simp
    · split
      · simp
      · simp

/-- Witness for C6 at `envAllOk`: the article text TEXT is written to
nyt.txt and the copy command targets the bucket-prefixed name. -/
theorem article_written_and_uploaded_witness :
    (nytRun envAllOk api_key).snd.writes = [(nyt_text_filename, "TEXT")] ∧
    ("gsutil cp " ++ nyt_text_filename ++ " " ++ cloud_nyt_text_filename)
      ∈ (nytRun envAllOk api_key).snd.shells ∧
    cloud_nyt_text_filename = google_cloud_bucket ++ nyt_text_filename ∧
    nyt_text_filename = "nyt.txt" :=
  article_written_and_uploaded envAllOk api_key "page" rjW
    [.str "https://www.nytimes.com/a.html", .str "https://www.nytimes.com/b.html"]
    "https://www.nytimes.com/b.html" "page" "TEXT"
    (by decide) (by decide) (by decide) (by decide) (by decide) (by decide)

/-- Witness for C1 at the concrete analysis value `ajW`. -/
theorem flattening_concat_witness :
    flattenAnalysis ajW = .ok (mlsW.flatten, tsW) ∧
    mlsW.flatten.length = (mlsW.map List.length).sum :=
  flattening_concat ajW esW mlsW tsW (by decide)
    (List.Forall₂.cons (by decide) (List.Forall₂.cons (by decide) List.Forall₂.nil))
    (List.Forall₂.cons (by decide)
      (List.Forall₂.cons (by decide)
        (List.Forall₂.cons (by decide) List.Forall₂.nil)))

/-- C7: every value of the 32-bit random draw lies below 2 to the 32, the
generated project name is the literal followed by the decimal rendering of
the draw, and the generated bucket name is its literal followed by the
decimal rendering and a trailing slash, hence begins with gs:// and ends
with a slash. -/
theorem random_names_shape (e1 e2 : Nat) :
    getrandbits 32 e1 < 2 ^ 32 ∧
    project_name (getrandbits 32 e1) =
      "amli-cloud-tutorial-" ++ Nat.repr (getrandbits 32 e1) ∧
    bucket_name (getrandbits 32 e2) =
      ("gs://amli-cloud-tutorial-bucket-" ++ Nat.repr (getrandbits 32 e2)) ++ "/" ∧
    (∃ rest, bucket_name (getrandbits 32 e2) = "gs://" ++ rest) ∧
    (∃ stem, bucket_name (getrandbits 32 e2) = stem ++ "/") := by
  refine ⟨?_, rfl, rfl, ?_, ?_⟩
  · exact Nat.mod_lt _ (by norm_num)
  · refine ⟨("amli-cloud-tutorial-bucket-" ++ pyStr (getrandbits 32 e2)) ++ "/", ?_⟩
    have h : bucket_name (getrandbits 32 e2)
        = (("gs://" ++ "amli-cloud-tutorial-bucket-") ++ pyStr (getrandbits 32 e2)) ++ "/" :=
      rfl
    rw [h]
    simp only [String.append_assoc]
  · exact ⟨"gs://amli-cloud-tutorial-bucket-" ++ pyStr (getrandbits 32 e2), rfl⟩

/-- C8 counterexample: in the environment state where the tool is not
installed, the authentication check does not finish with success status:
its access-token guard fails and its fallback, the interactive login, is
itself command-not-found, so the or-chain reports the fallback failure. -/
theorem setup_auth_check_fails_cex :
    exitCode ⟨false, false, false⟩ setupCellAuth = 127 ∧
    exitCode ⟨false, false, false⟩ setupCellAuth ≠ 0 := by
  constructor
  · decide
  · decide

/-- C8 amended: the tool-presence and project-selection checks finish with
exit status zero in every environment state, their failing branch being an
echo of an instruction; the authentication check finishes with exit status
zero in every state where the tool is installed, its failing branch
running the interactive login fallback — only when the tool is absent does
that fallback itself fail and the chain report its status. -/
theorem setup_checks_status (env : GEnv) :
    exitCode env setupCellWhich = 0 ∧
    exitCode env setupCellProject = 0 ∧
    (env.gcloudInstalled = true → exitCode env setupCellAuth = 0) := by
  obtain ⟨i, a, p⟩ := env
  cases i <;> cases a <;> cases p <;> decide

/-- Witness for the amended C8 at an installed, unauthenticated state with
no project selected: all three checks exit zero. -/
theorem setup_checks_status_witness :
    exitCode ⟨true, false, false⟩ setupCellWhich = 0 ∧
    exitCode ⟨true, false, false⟩ setupCellProject = 0 ∧
    exitCode ⟨true, false, false⟩ setupCellAuth = 0 :=
  ⟨(setup_checks_status ⟨true, false, false⟩).1,
   (setup_checks_status ⟨true, false, false⟩).2.1,
   (setup_checks_status ⟨true, false, false⟩).2.2 rfl⟩

/-- A walkthrough oracle whose bucket listing names the shared bucket. -/
def envListed : NbEnv := ⟨fun _ => [sharedBucket], 0, 0, []⟩

/-- A walkthrough oracle whose bucket listing is empty. -/
def envEmptyLs : NbEnv := ⟨fun _ => [], 0, 0, []⟩

/-- A walkthrough oracle listing the shared bucket and one other. -/
def envListedTwo : NbEnv :=
  ⟨fun c => if c = "gsutil ls" then [sharedBucket, "gs://other-bucket/"] else [],
   5, 7, ["a.ipynb"]⟩

/-- C2 counterexample: the guarded shared-bucket creation cell of the
project/storage walkthrough captures the listing output and branches on
it, so two environments differing only in what the CLI printed make it
issue different command sequences. -/
theorem cli_output_branching_cex :
    Cell.bucketCheck ∈ walkthroughCells ∧
    envListed.rand1 = envEmptyLs.rand1 ∧
    envListed.rand2 = envEmptyLs.rand2 ∧
    envListed.listdir = envEmptyLs.listdir ∧
    (runCell envListed initState Cell.bucketCheck).snd ≠
      (runCell envEmptyLs initState Cell.bucketCheck).snd := by
  refine ⟨?_, rfl, rfl, rfl, ?_⟩
  · decide
  · decide

/-- C2 amended: every cell of the project/storage walkthrough other than
the guarded shared-bucket creation cell neither captures, parses nor
branches on CLI output — with the same random draws and directory listing,
any two CLI-output oracles produce the same state and the same commands —
while the guarded creation cell issues commands depending only on whether
the shared bucket occurs among the captured listing lines. -/
theorem cells_independent_of_cli_output :
    (∀ c ∈ walkthroughCells, c ≠ Cell.bucketCheck →
      ∀ env env2 : NbEnv, ∀ st : PState, env.rand1 = env2.rand1 →
        env.rand2 = env2.rand2 → env.listdir = env2.listdir →
        runCell env st c = runCell env2 st c) ∧
    (∀ env env2 : NbEnv, ∀ st : PState,
      (sharedBucket ∈ env.shellLines "gsutil ls" ↔
        sharedBucket ∈ env2.shellLines "gsutil ls") →
      (runCell env st Cell.bucketCheck).snd =
        (runCell env2 st Cell.bucketCheck).snd) := by
  constructor
  · intro c hc hne env env2 st h1 h2 h3
    cases c <;> simp_all [runCell]
  · intro env env2 st hiff
    by_cases hm : sharedBucket ∈ env.shellLines "gsutil ls"
    · have hm2 := hiff.mp hm
      simp [runCell, hm, hm2]
    · have hm2 : sharedBucket ∉ env2.shellLines "gsutil ls" := fun h => hm (hiff.mpr h)
      simp [runCell, hm, hm2]

/-- Witness for the amended C2: a display-only cell behaves identically
under two different CLI-output oracles, and the guarded creation cell
issues the same commands under two oracles that both list the shared
bucket. -/
theorem cells_independent_of_cli_output_witness :
    runCell envListed initState (Cell.shell ["gcloud projects list"]) =
      runCell envEmptyLs initState (Cell.shell ["gcloud projects list"]) ∧
    (runCell envListed initState Cell.bucketCheck).snd =
      (runCell envListedTwo initState Cell.bucketCheck).snd :=
  ⟨cells_independent_of_cli_output.1 (Cell.shell ["gcloud projects list"])
      (by decide) (by decide) envListed envEmptyLs initState rfl rfl rfl,
   cells_independent_of_cli_output.2 envListed envListedTwo initState (by decide)⟩

/-- C9: the guarded creation cell issues the make-bucket command exactly
when the shared bucket is absent from the captured listing lines; when it
is present the cell issues only the two listing commands, so any
interpretation of commands over a bucket state in which listing is
effect-free leaves the state unchanged. -/
theorem bucket_creation_guarded (env : NbEnv) (st : PState) :
    (("gsutil mb " ++ sharedBucket) ∈ (runCell env st Cell.bucketCheck).snd ↔
      sharedBucket ∉ env.shellLines "gsutil ls") ∧
    (sharedBucket ∈ env.shellLines "gsutil ls" →
      (runCell env st Cell.bucketCheck).snd = ["gsutil ls", "gsutil ls"] ∧
      ∀ (S : Type) (applyCmd : S → String → S) (B : S),
        (∀ b, applyCmd b "gsutil ls" = b) →
        List.foldl applyCmd B (runCell env st Cell.bucketCheck).snd = B) := by
  by_cases hm : sharedBucket ∈ env.shellLines "gsutil ls"
  · refine ⟨?_, fun _ => ⟨?_, ?_⟩⟩
    · simp [runCell, hm]
      decide
    · simp [runCell, hm]
    · intro S applyCmd B hap
      simp [runCell, hm, List.foldl, hap]
  · refine ⟨?_, fun h => absurd h hm⟩
    simp [runCell, hm]

/-- Witness for C9 at an oracle that lists the shared bucket: the cell
issues only the two listing commands and a concrete effect-free-listing
interpretation leaves the state unchanged. -/
theorem bucket_creation_guarded_witness :
    (runCell envListed initState Cell.bucketCheck).snd = ["gsutil ls", "gsutil ls"] ∧
    List.foldl (fun b c => if c = "gsutil ls" then b else b ++ [c]) ["seed"]
      (runCell envListed initState Cell.bucketCheck).snd = ["seed"] :=
  ⟨((bucket_creation_guarded envListed initState).2 (by decide)).1,
   ((bucket_creation_guarded envListed initState).2 (by decide)).2 (List String)
     (fun b c => if c = "gsutil ls" then b else b ++ [c]) ["seed"]
     (fun b => by simp)⟩

/-- A key lies in the columns of a dataframe exactly when some row record
carries it. -/
theorem mem_dfColumns (rows : List Json) (k : String) :
    k ∈ dfColumns rows ↔ ∃ r ∈ rows, k ∈ recordKeys r := by
  have haux : ∀ acc,
      k ∈ rows.foldl (fun acc r => acc ++ (recordKeys r).filter fun k2 => k2 ∉ acc) acc ↔
      k ∈ acc ∨ ∃ r ∈ rows, k ∈ recordKeys r := by
    induction rows with
    | nil => intro acc; simp
    | cons r rs ih =>
      intro acc
      rw [List.foldl_cons, ih]
      simp only [List.mem_append, List.mem_filter, List.mem_cons, decide_not]
      constructor
      · rintro ((h | ⟨h1, _⟩) | ⟨r2, h2, h3⟩)
        · exact Or.inl h
        · exact Or.inr ⟨r, Or.inl rfl, h1⟩
        · exact Or.inr ⟨r2, Or.inr h2, h3⟩
      · rintro (h | ⟨r2, h2 | h2, h3⟩)
        · exact Or.inl (Or.inl h)
        · subst h2
          by_cases hacc : k ∈ acc
          · exact Or.inl (Or.inl hacc)
          · exact Or.inl (Or.inr ⟨h3, by simpa using hacc⟩)
        · exact Or.inr ⟨r2, h2, h3⟩
  have h := haux []
  simpa [dfColumns] using h

/-- A successful association lookup puts the key among the keys. -/
theorem mem_keys_of_lookup {k : String} {v : Json} :
    ∀ {fields : List (String × Json)}, fields.lookup k = some v →
      k ∈ fields.map Prod.fst := by
  intro fields h
  induction fields with
  | nil => simp [List.lookup] at h
  | cons f fs ih =>
    rw [List.lookup] at h
    by_cases hk : k = f.1
    · simp [hk]
    · simp only [show (k == f.1) = false from beq_false_of_ne hk] at h
      simp [ih h]

/-- A record with a successful key lookup carries that key. -/
theorem mem_recordKeys_of_objLookup {k : String} {t v : Json}
    (h : Json.objLookup t k = some v) : k ∈ recordKeys t := by
  cases t with
  | obj fields => exact mem_keys_of_lookup h
  | null => exact absurd h (by simp [Json.objLookup])
  | bool b => exact absurd h (by simp [Json.objLookup])
  | num n => exact absurd h (by simp [Json.objLookup])
  | str s => exact absurd h (by simp [Json.objLookup])
  | arr es => exact absurd h (by simp [Json.objLookup])

/-- Pointwise lookup success turns the column map into the value list. -/
theorem column_map_of_forall2 {c : String} :
    ∀ {ts vs : List Json},
      List.Forall₂ (fun t v => Json.objLookup t c = some v) ts vs →
      (ts.map fun r =>
        match r.objLookup c with
        | some v => JCell.val v
        | none => JCell.nan) = vs.map JCell.val := by
  intro ts vs h
  induction h with
  | nil => rfl
  | cons h1 _ ih => simp [h1, ih]

/-- Membership in the seen-filtering walk of the unique operation. -/
theorem mem_uniqueAux (x : JCell) (xs : List JCell) :
    ∀ seen, x ∈ uniqueAux seen xs ↔ x ∈ xs ∧ x ∉ seen := by
  induction xs with
  | nil => intro seen; simp [uniqueAux]
  | cons y ys ih =>
    intro seen
    by_cases hy : y ∈ seen
    · rw [uniqueAux, if_pos hy, ih]
      constructor
      · rintro ⟨h1, h2⟩
        exact ⟨List.mem_cons_of_mem y h1, h2⟩
      · rintro ⟨h1, h2⟩
        rcases List.mem_cons.mp h1 with h1 | h1
        · subst h1; exact absurd hy h2
        · exact ⟨h1, h2⟩
    · rw [uniqueAux, if_neg hy]
      constructor
      · intro h
        rcases List.mem_cons.mp h with h | h
        · subst h; exact ⟨List.mem_cons_self x ys, hy⟩
        · obtain ⟨h1, h2⟩ := (ih (y :: seen)).mp h
          refine ⟨List.mem_cons_of_mem y h1, fun hc => h2 (List.mem_cons_of_mem y hc)⟩
      · rintro ⟨h1, h2⟩
        rcases List.mem_cons.mp h1 with h1 | h1
        · subst h1; exact List.mem_cons_self x _
        · by_cases hxy : x = y
          · subst hxy; exact List.mem_cons_self x _
          · refine List.mem_cons_of_mem y ((ih (y :: seen)).mpr ⟨h1, ?_⟩)
            intro hc
            rcases List.mem_cons.mp hc with hc | hc
            · exact hxy hc
            · exact h2 hc

/-- The unique operation never repeats an entry. -/
theorem nodup_uniqueAux (xs : List JCell) : ∀ seen, (uniqueAux seen xs).Nodup := by
  induction xs with
  | nil => intro seen; simp [uniqueAux]
  | cons y ys ih =>
    intro seen
    by_cases hy : y ∈ seen
    · rw [uniqueAux, if_pos hy]; exact ih seen
    · rw [uniqueAux, if_neg hy]
      rw [List.nodup_cons]
      refine ⟨fun hc => ?_, ih (y :: seen)⟩
      exact ((mem_uniqueAux y ys (y :: seen)).mp hc).2 (List.mem_cons_self y seen)

/-- The unique operation computes the distinct entries in first-occurrence
order. -/
theorem uniqueAux_eq_distinct (xs : List JCell) :
    ∀ seen, uniqueAux seen xs =
      distinctFirstOccurrence (xs.filter fun y => y ∉ seen) := by
  induction xs with
  | nil => intro seen; simp [uniqueAux, distinctFirstOccurrence]
  | cons y ys ih =>
    intro seen
    by_cases hy : y ∈ seen
    · rw [uniqueAux, if_pos hy, ih seen, List.filter_cons]
      simp [hy]
    · rw [uniqueAux, if_neg hy, ih (y :: seen), List.filter_cons]
      simp only [hy, decide_not, not_false_eq_true, decide_True, if_true]
      rw [distinctFirstOccurrence]
      congr 1
      rw [List.filter_filter]
      congr 1
      apply List.filter_congr
      intro z _
      by_cases hz : z = y
      · subst hz; simp
      · simp [hz, List.mem_cons]

/-- A texts list on which the claimed precondition fails while the column
selection still succeeds: only the first record carries a content key. -/
def tsBad : List Json :=
  [.obj [("content", .str "A")], .obj [("beginOffset", .num 0)]]

/-- C10 counterexample: on `tsBad` the content-column selection succeeds,
with a missing value for the second row, although not every record
contains a "content" key — refuting that the step succeeds only when
every flattened mention text record carries the key. -/
theorem content_column_cex :
    (∃ cells, dfGetColumn tsBad "content" = .ok cells) ∧
    ¬ (∀ t ∈ tsBad, "content" ∈ recordKeys t) := by
  constructor
  · exact ⟨[.val (.str "A"), .nan], by decide⟩
  · decide

/-- C10 amended: the final unique-listing step succeeds exactly when at
least one flattened mention text record carries a "content" key (records
lacking it contribute missing values rather than a key error); when the
texts list is nonempty and every record carries the key, the step selects
the content values in order and the unique operation returns the distinct
values in order of first occurrence, without repetition and without
losing or inventing values. -/
theorem content_column_amended (ts : List Json) :
    ((∃ cells, dfGetColumn ts "content" = .ok cells) ↔
      ∃ t ∈ ts, "content" ∈ recordKeys t) ∧
    (∀ vs : List Json,
      List.Forall₂ (fun t v => Json.objLookup t "content" = some v) ts vs →
      ts ≠ [] →
      dfGetColumn ts "content" = .ok (vs.map JCell.val) ∧
      unique (vs.map JCell.val) = distinctFirstOccurrence (vs.map JCell.val) ∧
      (unique (vs.map JCell.val)).Nodup ∧
      (∀ x, x ∈ unique (vs.map JCell.val) ↔ x ∈ vs.map JCell.val)) := by
  constructor
  · constructor
    · rintro ⟨cells, hc⟩
      rw [dfGetColumn] at hc
      by_cases hmem : "content" ∈ dfColumns ts
      · exact (mem_dfColumns ts "content").mp hmem
      · rw [if_neg hmem] at hc
        cases hc
    · intro hex
      rw [dfGetColumn, if_pos ((mem_dfColumns ts "content").mpr hex)]
      exact ⟨_, rfl⟩
  · intro vs hF hne
    have hcol : "content" ∈ dfColumns ts := by
      apply (mem_dfColumns ts "content").mpr
      cases hF with
      | nil => exact absurd rfl hne
      | cons h1 _ =>
        exact ⟨_, List.mem_cons_self _ _, mem_recordKeys_of_objLookup h1⟩
    refine ⟨?_, ?_, ?_, ?_⟩
    · rw [dfGetColumn, if_pos hcol, column_map_of_forall2 hF]
    · have h := uniqueAux_eq_distinct (vs.map JCell.val) []
      simpa [unique] using h
    · exact nodup_uniqueAux (vs.map JCell.val) []
    · intro x
      have h := mem_uniqueAux x (vs.map JCell.val) []
      simpa [unique] using h

/-- A texts list in which every record carries a content key, with one
duplicated content value. -/
def tsGood : List Json :=
  [.obj [("content", .str "A"), ("beginOffset", .num 1)],
   .obj [("content", .str "B")],
   .obj [("content", .str "A"), ("beginOffset", .num 7)]]

/-- The content values of `tsGood`, in row order. -/
def vsGood : List Json := [.str "A", .str "B", .str "A"]

/-- Witness for the amended C10 at `tsGood`: the column selection returns
the three content values and the unique operation agrees with the
first-occurrence distinct listing, repeats nothing and keeps exactly the
occurring values. -/
theorem content_column_amended_witness :
    dfGetColumn tsGood "content" = .ok (vsGood.map JCell.val) ∧
    unique (vsGood.map JCell.val) = distinctFirstOccurrence (vsGood.map JCell.val) ∧
    (unique (vsGood.map JCell.val)).Nodup ∧
    (∀ x, x ∈ unique (vsGood.map JCell.val) ↔ x ∈ vsGood.map JCell.val) :=
  (content_column_amended tsGood).2 vsGood
    (List.Forall₂.cons (by decide)
      (List.Forall₂.cons (by decide)
        (List.Forall₂.cons (by decide) List.Forall₂.nil)))
    (by decide)
